import Mathlib

/-!
Verification development for the Beholder repository: a Cloudflare Worker API
(POST /point, GET /heat, GET /points) over a D1 (SQLite) database with H3
hexagonal aggregation tables `heat_r7` and `heat_r9`.

The definitions below are a shallow embedding of the worker code
(`api/worker.js`, D1 variant) and of the database schema
(`database/migrations/001_init.sql`, D1 variant).  Numeric SQL/JS values are
embedded as rationals; third-party library calls (Google geocoding, Street
View, the Gemini model, and the h3-js functions `latLngToCell` /
`cellToLatLng`) are parameters of the model, collected in `Env`.
-/

namespace Beholder

/-- A geocoding result as produced by `geocodeAddress` (`geocoding.js`):
the fields of it that the worker reads. -/
structure GeoResult where
  place_id : Option String
  formatted_address : String
  lat : ℚ
  lng : ℚ
deriving DecidableEq, Repr

/-- Result of the AI aesthetic evaluation (`evaluateAesthetics` in
`ai-evaluation.js`): the fields the worker reads.  `beauty = none` models the
JS value `null`. -/
structure AIResult where
  beauty : Option ℚ
  blurb : Option String
deriving DecidableEq, Repr

/-- The body of a POST /point request: the five fields destructured by the
worker.  `none` models an absent (or falsy) field. -/
structure PostRequest where
  address : Option String
  imageUrl : Option String
  imageData : Option String
  precomputedBeauty : Option ℚ
  precomputedReview : Option String
deriving DecidableEq, Repr

/-- A row of the `points` table (D1 schema, `001_init.sql` D1 variant,
including the `image_url` column of migration 002).  `created_at` (a
wall-clock timestamp default) is not modelled.  `description` is carried as
an `Option` because the worker binds `aiResult.blurb`, which may be `null`;
the NOT NULL column constraint is enforced at insertion (`insertOK`). -/
structure Point where
  place_id : Option String
  beauty : ℚ
  description : Option String
  model_version : String
  address : String
  lat : ℚ
  lng : ℚ
  h3_r7 : String
  h3_r9 : String
  h3_r13 : String
  image_url : Option String
deriving DecidableEq, Repr

/-- A row of a heat aggregation table (`heat_r7` / `heat_r9`).  The `avg`
column is generated from `sum` and `cnt` (see `heatAvg`), so it is not a
stored field of the model. -/
structure HeatRow where
  h3 : String
  sum : ℚ
  cnt : ℕ
deriving DecidableEq, Repr

/-- The database state: the `points` table and the two heat aggregation
tables, each as a list of rows in insertion order. -/
structure DBState where
  points : List Point
  heat7 : List HeatRow
  heat9 : List HeatRow
deriving DecidableEq, Repr

/-- The parts of a worker response to POST /point that the claims are about:
HTTP status, the returned point, the `message` field, and the `error`
field. -/
structure PostResponse where
  status : ℕ
  point : Option Point
  message : Option String
  error : Option String
deriving DecidableEq, Repr

/-- One element of the GET /heat response array: the cell centroid, the
rounded average beauty, and the cell id. -/
structure HeatCell where
  lat : ℚ
  lng : ℚ
  avg : ℚ
  h3 : String
deriving DecidableEq, Repr

/-- The external services the worker calls, as pure parameters of the model:
`geocode` (geocodeAddress), `getStreetViewImageUrl` (streetview.js),
`evaluateAesthetics` (ai-evaluation.js, taking the image and the address),
and the h3-js library functions `latLngToCell` and `cellToLatLng`. -/
structure Env where
  geocode : String → Option GeoResult
  getStreetViewImageUrl : ℚ → ℚ → Option String
  evaluateAesthetics : String → String → AIResult
  latLngToCell : ℚ → ℚ → ℕ → String
  cellToLatLng : String → ℚ × ℚ

/-- `getH3Resolution` from `api/utils.js`: pick the heat table resolution
for a zoom level. -/
def getH3Resolution (zoom : ℤ) : ℕ :=
  if 9 ≤ zoom ∧ zoom ≤ 12 then 7
  else if 13 ≤ zoom ∧ zoom ≤ 15 then 9
  else if 16 ≤ zoom then 13
  else 7

/-- The upsert statement of `updateHeatAggregates` (and of the
`update_heat_aggregates` trigger in the Postgres schema):
`INSERT INTO heat_rN (h3, sum, cnt) VALUES (?, ?, 1) ON CONFLICT(h3) DO
UPDATE SET sum = sum + excluded.sum, cnt = cnt + 1`. -/
def upsertHeat (t : List HeatRow) (k : String) (b : ℚ) : List HeatRow :=
  if t.any (fun r => r.h3 == k) then
    t.map (fun r => if r.h3 == k then { r with sum := r.sum + b, cnt := r.cnt + 1 } else r)
  else
    t ++ [{ h3 := k, sum := b, cnt := 1 }]

/-- The duplicate check of POST /point: `SELECT ... FROM points WHERE
place_id = ?`, guarded by JS truthiness of `geoResult.place_id`. -/
def dedupLookup (st : DBState) (pid : Option String) : Option Point :=
  match pid with
  | none => none
  | some pid => st.points.find? (fun p => p.place_id == some pid)

/-- The image-source selection of POST /point: a user-supplied `imageUrl`,
else user-supplied base64 `imageData` (with final URL `uploaded_image`),
else an auto-fetched Street View image.  The result pairs `imageForAI` with
`finalImageUrl`; `none` means the 400 "No Street View imagery" error. -/
def imageSource (env : Env) (req : PostRequest) (geo : GeoResult) : Option (String × String) :=
  match req.imageUrl with
  | some u => some (u, u)
  | none =>
    match req.imageData with
    | some d => some (d, "uploaded_image")
    | none => (env.getStreetViewImageUrl geo.lat geo.lng).map (fun u => (u, u))

/-- The AI-result selection of POST /point: precomputed beauty and review
when both are supplied, otherwise a call to `evaluateAesthetics`. -/
def aiResultFor (env : Env) (req : PostRequest) (imageForAI address : String) : AIResult :=
  match req.precomputedBeauty, req.precomputedReview with
  | some b, some r => { beauty := some b, blurb := some r }
  | _, _ => env.evaluateAesthetics imageForAI address

/-- The constraints the `points` schema places on an insert: the CHECK
`beauty >= 1 AND beauty <= 10`, NOT NULL `place_id` and `description`, and
UNIQUE `place_id`.  A violating insert throws, which the worker's catch
turns into a 500 response with no row written. -/
def insertOK (st : DBState) (p : Point) : Prop :=
  1 ≤ p.beauty ∧ p.beauty ≤ 10 ∧ p.place_id.isSome = true ∧
    p.description.isSome = true ∧ ∀ q ∈ st.points, q.place_id ≠ p.place_id

instance (st : DBState) (p : Point) : Decidable (insertOK st p) := by
  unfold insertOK; exact inferInstance

/-- The POST /point handler (D1 worker), as a state transformer.  The
branch structure mirrors the source: missing address → 400; failed geocode
→ 400; existing `place_id` → 200 with the existing row; no image source →
400; no beauty score → 500; otherwise compute the three H3 cells, insert
the row and update the two heat tables. -/
def postPoint (env : Env) (req : PostRequest) (st : DBState) : PostResponse × DBState :=
  match req.address with
  | none =>
      ({ status := 400, point := none, message := none, error := some "Address is required" }, st)
  | some address =>
    match env.geocode address with
    | none =>
        ({ status := 400, point := none, message := none,
           error := some "Failed to geocode address" }, st)
    | some geo =>
      match dedupLookup st geo.place_id with
      | some existing =>
          ({ status := 200, point := some existing,
             message := some "Location already exists in database", error := none }, st)
      | none =>
        match imageSource env req geo with
        | none =>
            ({ status := 400, point := none, message := none,
               error := some "No Street View imagery available for this address" }, st)
        | some img =>
          match (aiResultFor env req img.1 address).beauty with
          | none =>
              ({ status := 500, point := none, message := none,
                 error := some "Failed to evaluate aesthetics" }, st)
          | some beauty =>
            let p : Point :=
              { place_id := geo.place_id, beauty := beauty,
                description := (aiResultFor env req img.1 address).blurb,
                model_version := "gemini-2.5-flash", address := geo.formatted_address,
                lat := geo.lat, lng := geo.lng,
                h3_r7 := env.latLngToCell geo.lat geo.lng 7,
                h3_r9 := env.latLngToCell geo.lat geo.lng 9,
                h3_r13 := env.latLngToCell geo.lat geo.lng 13,
                image_url := some img.2 }
            if insertOK st p then
              ({ status := 201, point := some p, message := none, error := none },
               { points := st.points ++ [p],
                 heat7 := upsertHeat st.heat7 p.h3_r7 beauty,
                 heat9 := upsertHeat st.heat9 p.h3_r9 beauty })
            else
              ({ status := 500, point := none, message := none,
                 error := some "Internal server error" }, st)

/-- The empty database, as created by the migration. -/
def emptyState : DBState := { points := [], heat7 := [], heat9 := [] }

/-- Sequential processing of a list of POST /point requests. -/
def processAll (env : Env) (reqs : List PostRequest) (st : DBState) : DBState :=
  reqs.foldl (fun s r => (postPoint env r s).2) st

/-- The GET /points bounding-box condition: `lat BETWEEN south AND north AND
lng BETWEEN west AND east` (SQL BETWEEN is inclusive). -/
def inBBox (west south east north : ℚ) (p : Point) : Prop :=
  south ≤ p.lat ∧ p.lat ≤ north ∧ west ≤ p.lng ∧ p.lng ≤ east

instance (west south east north : ℚ) (p : Point) :
    Decidable (inBBox west south east north p) := by
  unfold inBBox; exact inferInstance

/-- The GET /points handler: filter the `points` table by the bounding box
and truncate to `LIMIT 5000`. -/
def getPoints (st : DBState) (west south east north : ℚ) : List Point :=
  (st.points.filter (fun p => decide (inBBox west south east north p))).take 5000

/-- Which heat table the interpolated query `SELECT ... FROM
heat_r${resolution}` reads.  The D1 schema creates only `heat_r7` and
`heat_r9`; for any other resolution the query fails (no such table), which
the worker's catch turns into a 500 — modelled as `none`. -/
def selectHeatTable (st : DBState) (res : ℕ) : Option (List HeatRow) :=
  if res = 7 then some st.heat7
  else if res = 9 then some st.heat9
  else none

/-- SQL `ROUND(x, 1)` for the nonnegative values arising here: SQLite rounds
half away from zero, which on nonnegative input is `⌊x * 10 + 1/2⌋ / 10`. -/
def round1 (q : ℚ) : ℚ := (⌊q * 10 + 1 / 2⌋ : ℤ) / 10

/-- The generated `avg` column of the heat tables:
`CASE WHEN cnt > 0 THEN ROUND(sum / cnt, 1) ELSE NULL END`. -/
def heatAvg (r : HeatRow) : Option ℚ :=
  if 0 < r.cnt then some (round1 (r.sum / (r.cnt : ℚ))) else none

/-- The GET /heat handler: select the table for the zoom's resolution, take
the first 20000 rows whose `avg` is non-null (`WHERE avg IS NOT NULL LIMIT
20000`), then keep the rows whose centroid `cellToLatLng(h3)` lies in the
bounding box (`lng >= west && lng <= east && lat >= south && lat <= north`),
reporting centroid, parsed `avg` and cell id.  `none` models the 500 error
raised when the table for the resolution does not exist. -/
def getHeat (env : Env) (st : DBState) (zoom : ℤ) (west south east north : ℚ) :
    Option (List HeatCell) :=
  (selectHeatTable st (getH3Resolution zoom)).map (fun t =>
    ((t.filter (fun r => (heatAvg r).isSome)).take 20000).filterMap (fun r =>
      match heatAvg r with
      | none => none
      | some a =>
        let c := env.cellToLatLng r.h3
        if west ≤ c.2 ∧ c.2 ≤ east ∧ south ≤ c.1 ∧ c.1 ≤ north then
          some { lat := c.1, lng := c.2, avg := a, h3 := r.h3 }
        else none))

/-- The pure tail of `evaluateAesthetics` (`ai-evaluation.js`, lines
parsing the model text): `scoreMatch` is the number captured by the
`SCORE:` regular expression (if it matched) and `numberMatches` the list of
standalone numbers of the text, both supplied by the JS regex engine, which
is not re-implemented here.  A matched score is clamped to [1, 10]
(`Math.max(1.0, Math.min(10.0, score))`); otherwise the first standalone
number lying in [1, 10] is used, else `null`. -/
def parseScore (scoreMatch : Option ℚ) (numberMatches : List ℚ) : Option ℚ :=
  match scoreMatch with
  | some n => some (max 1 (min 10 n))
  | none => numberMatches.find? (fun c => decide (1 ≤ c ∧ c ≤ 10))

/-- The `beauty` field produced by `evaluateAesthetics`: `null` when the
try-block threw (`errored = true`), otherwise the parsed score. -/
def evaluateAestheticsBeauty (errored : Bool) (scoreMatch : Option ℚ)
    (numberMatches : List ℚ) : Option ℚ :=
  if errored then none else parseScore scoreMatch numberMatches

/-! ### Concurrency model

Each D1 statement is atomic, so a run of concurrent POST /point requests is
an interleaving of the per-request sequences of write statements.  A request
that fails before its row insert (or whose insert throws) writes nothing;
a successful request contributes its `INSERT INTO points` followed by the
two heat upserts of `updateHeatAggregates`. -/

/-- An atomic write statement executed by the worker against D1. -/
inductive DBOp where
  | insertPoint (p : Point)
  | upsert7 (h3 : String) (beauty : ℚ)
  | upsert9 (h3 : String) (beauty : ℚ)
deriving DecidableEq, Repr

/-- Effect of one atomic statement on the database. -/
def applyOp (st : DBState) : DBOp → DBState
  | .insertPoint p => { st with points := st.points ++ [p] }
  | .upsert7 h b => { st with heat7 := upsertHeat st.heat7 h b }
  | .upsert9 h b => { st with heat9 := upsertHeat st.heat9 h b }

/-- Apply a sequence of atomic statements in order. -/
def applyOps (st : DBState) (ops : List DBOp) : DBState := ops.foldl applyOp st

/-- The data of one successful POST /point request that reaches the insert:
the geocoded fields and the accepted AI evaluation. -/
structure InsertJob where
  place_id : Option String
  beauty : ℚ
  description : Option String
  address : String
  lat : ℚ
  lng : ℚ
  image_url : Option String
deriving DecidableEq, Repr

/-- The row such a request inserts, with its worker-computed H3 cells. -/
def jobPoint (ltc : ℚ → ℚ → ℕ → String) (j : InsertJob) : Point :=
  { place_id := j.place_id, beauty := j.beauty, description := j.description,
    model_version := "gemini-2.5-flash", address := j.address,
    lat := j.lat, lng := j.lng,
    h3_r7 := ltc j.lat j.lng 7, h3_r9 := ltc j.lat j.lng 9, h3_r13 := ltc j.lat j.lng 13,
    image_url := j.image_url }

/-- The write statements a successful request issues, in program order:
the row insert, then the `heat_r7` upsert, then the `heat_r9` upsert. -/
def jobOps (ltc : ℚ → ℚ → ℕ → String) (j : InsertJob) : List DBOp :=
  [.insertPoint (jobPoint ltc j),
   .upsert7 (ltc j.lat j.lng 7) j.beauty,
   .upsert9 (ltc j.lat j.lng 9) j.beauty]

/-- `Interleave ls L`: `L` is an interleaving of the sequences in `ls`,
preserving the order within each sequence. -/
inductive Interleave {α : Type} : List (List α) → List α → Prop
  | nil (ls : List (List α)) : (∀ l ∈ ls, l = []) → Interleave ls []
  | step (l₁ : List (List α)) (x : α) (xs : List α) (l₂ : List (List α)) (L : List α) :
      Interleave (l₁ ++ xs :: l₂) L → Interleave (l₁ ++ (x :: xs) :: l₂) (x :: L)

/-- The points inserted by a statement sequence, in order. -/
def insertsOf (ops : List DBOp) : List Point :=
  ops.filterMap (fun op => match op with | .insertPoint p => some p | _ => none)

/-- The (cell, beauty) pairs upserted into `heat_r7` by a statement
sequence, in order. -/
def ups7Of (ops : List DBOp) : List (String × ℚ) :=
  ops.filterMap (fun op => match op with | .upsert7 h b => some (h, b) | _ => none)

/-- The (cell, beauty) pairs upserted into `heat_r9` by a statement
sequence, in order. -/
def ups9Of (ops : List DBOp) : List (String × ℚ) :=
  ops.filterMap (fun op => match op with | .upsert9 h b => some (h, b) | _ => none)

/-- Apply a sequence of heat upserts to one table. -/
def applyUpserts (t : List HeatRow) (ups : List (String × ℚ)) : List HeatRow :=
  ups.foldl (fun t u => upsertHeat t u.1 u.2) t

/-! ### Aggregate specification

`tableConsistent key val t xs` states that a heat table `t` holds exactly
the per-cell running sums and counts of the entries `xs` (an entry `x`
lives in cell `key x` and carries value `val x`), and that a cell with no
entries has no row. -/

/-- Total beauty of the entries of `xs` lying in cell `c`. -/
def cellSum {α : Type} (key : α → String) (val : α → ℚ) (xs : List α) (c : String) : ℚ :=
  ((xs.filter (fun x => key x == c)).map val).sum

/-- Number of entries of `xs` lying in cell `c`. -/
def cellCnt {α : Type} (key : α → String) (xs : List α) (c : String) : ℕ :=
  (xs.filter (fun x => key x == c)).length

/-- The heat-table invariant: for every cell, the first row with that key
(the row, keys being unique) carries the sum and count of the matching
entries and the cell is inhabited; cells with no matching entry have no
row. -/
def tableConsistent {α : Type} (key : α → String) (val : α → ℚ)
    (t : List HeatRow) (xs : List α) : Prop :=
  (∀ c r, t.find? (fun r2 => r2.h3 == c) = some r →
      r.sum = cellSum key val xs c ∧ r.cnt = cellCnt key xs c ∧ 0 < cellCnt key xs c) ∧
  (∀ c, t.find? (fun r2 => r2.h3 == c) = none → cellCnt key xs c = 0)

/-- The h3 keys of a heat table, in row order. -/
def heatKeys (t : List HeatRow) : List String := t.map (fun r => r.h3)

/-- The H3 cell of a point at resolution 7, as the worker computes it
(`latLngToCell(lat, lng, 7)`). -/
def key7 (ltc : ℚ → ℚ → ℕ → String) (p : Point) : String := ltc p.lat p.lng 7

/-- The H3 cell of a point at resolution 9, as the worker computes it. -/
def key9 (ltc : ℚ → ℚ → ℕ → String) (p : Point) : String := ltc p.lat p.lng 9

/-- Both heat tables agree with the stored points: for each resolution and
cell, the row carries the sum and count of the beauty scores of the points
in that cell, and cells with no points have no row. -/
def aggregatesConsistent (ltc : ℚ → ℚ → ℕ → String) (st : DBState) : Prop :=
  tableConsistent (key7 ltc) (fun p => p.beauty) st.heat7 st.points ∧
  tableConsistent (key9 ltc) (fun p => p.beauty) st.heat9 st.points

/-- Invariant of states reachable by the worker: unique heat keys,
consistent aggregates, and every stored beauty within the CHECK range. -/
def reachableInv (ltc : ℚ → ℚ → ℕ → String) (st : DBState) : Prop :=
  (heatKeys st.heat7).Nodup ∧ (heatKeys st.heat9).Nodup ∧
  aggregatesConsistent ltc st ∧ ∀ p ∈ st.points, 1 ≤ p.beauty ∧ p.beauty ≤ 10

/-! ### Response specifications -/

/-- A resolution for which the schema creates a heat table. -/
def heatTableExists (res : ℕ) : Prop := res = 7 ∨ res = 9

instance (res : ℕ) : Decidable (heatTableExists res) := by
  unfold heatTableExists; exact inferInstance

/-- GET /heat succeeds at zoom `z` whatever the environment, state and
bounding box. -/
def heatServed (z : ℤ) : Prop :=
  ∀ (env : Env) (st : DBState) (w s e n : ℚ), (getHeat env st z w s e n).isSome = true

/-- Characterisation of a GET /heat response `res`: the selected table
exists, and `res` holds exactly the cells, among the first 20000 rows of
that table with non-null `avg`, whose centroid lies in the bounding box,
each reported with its centroid, its parsed `avg` and its h3 id. -/
def heatFilterSpec (env : Env) (st : DBState) (zoom : ℤ) (w s e n : ℚ)
    (res : List HeatCell) : Prop :=
  ∃ t, selectHeatTable st (getH3Resolution zoom) = some t ∧
    ∀ cell, cell ∈ res ↔
      ∃ r, r ∈ (t.filter (fun r2 => (heatAvg r2).isSome)).take 20000 ∧
        heatAvg r = some cell.avg ∧
        env.cellToLatLng r.h3 = (cell.lat, cell.lng) ∧
        cell.h3 = r.h3 ∧
        w ≤ cell.lng ∧ cell.lng ≤ e ∧ s ≤ cell.lat ∧ cell.lat ≤ n

/-- Characterisation of a GET /points response: only stored points inside
the box are returned, at most 5000 of them, and when at most 5000 stored
points lie in the box the response holds exactly those points. -/
def pointsResponseSpec (st : DBState) (w s e n : ℚ) (res : List Point) : Prop :=
  (∀ p ∈ res, p ∈ st.points ∧ inBBox w s e n p) ∧
  res.length ≤ 5000 ∧
  ((st.points.filter (fun p => decide (inBBox w s e n p))).length ≤ 5000 →
      ∀ p, p ∈ res ↔ p ∈ st.points ∧ inBBox w s e n p)

/-- The error behaviour of POST /point: each failing step before the row
insert produces its error response and leaves the database unchanged, and
more generally every non-201 outcome leaves the database unchanged. -/
def postPointErrorSpec (env : Env) (req : PostRequest) (st : DBState) : Prop :=
  (req.address = none → postPoint env req st =
      ({ status := 400, point := none, message := none,
         error := some "Address is required" }, st)) ∧
  (∀ a, req.address = some a → env.geocode a = none → postPoint env req st =
      ({ status := 400, point := none, message := none,
         error := some "Failed to geocode address" }, st)) ∧
  (∀ a geo, req.address = some a → env.geocode a = some geo →
      dedupLookup st geo.place_id = none → req.imageUrl = none → req.imageData = none →
      env.getStreetViewImageUrl geo.lat geo.lng = none → postPoint env req st =
      ({ status := 400, point := none, message := none,
         error := some "No Street View imagery available for this address" }, st)) ∧
  (∀ a geo img, req.address = some a → env.geocode a = some geo →
      dedupLookup st geo.place_id = none → imageSource env req geo = some img →
      (aiResultFor env req img.1 a).beauty = none → postPoint env req st =
      ({ status := 500, point := none, message := none,
         error := some "Failed to evaluate aesthetics" }, st)) ∧
  ((postPoint env req st).1.status ≠ 201 → (postPoint env req st).2 = st)

/-- The 200 response of the duplicate-place branch of POST /point. -/
def dedupResponse (p : Point) : PostResponse :=
  { status := 200, point := some p,
    message := some "Location already exists in database", error := none }

/-- Deduplication behaviour at a geocoded place id `pid`: when a stored
point has that place id, POST /point answers 200 with that point and the
fixed message, leaves the state unchanged, and does so for any Street View
and AI services (neither is consulted); and after a successful 201 insert,
repeating the same request yields the duplicate response and changes
nothing. -/
def dedupSpec (env : Env) (req : PostRequest) (st : DBState) (pid : String) : Prop :=
  (∀ p, st.points.find? (fun q => q.place_id == some pid) = some p →
      postPoint env req st = (dedupResponse p, st) ∧
      ∀ sv ai2,
        postPoint { env with getStreetViewImageUrl := sv, evaluateAesthetics := ai2 } req st =
          (dedupResponse p, st)) ∧
  (∀ resp st2, postPoint env req st = (resp, st2) → resp.status = 201 →
      ∃ p, postPoint env req st2 = (dedupResponse p, st2))

/-- The part of C10 about returned heat cells: every returned `avg` is the
rounded mean `ROUND(sum / cnt, 1)` of a table row with positive count, and
lies in [1, 10]. -/
def heatAvgSpec (st : DBState) (zoom : ℤ) (res : List HeatCell) : Prop :=
  ∀ cell ∈ res, (1 ≤ cell.avg ∧ cell.avg ≤ 10) ∧
    ∃ t r, selectHeatTable st (getH3Resolution zoom) = some t ∧ r ∈ t ∧
      0 < r.cnt ∧ cell.avg = round1 (r.sum / (r.cnt : ℚ))

/-! ### Concrete fixtures used by the witness theorems -/

/-- A concrete stand-in for h3-js `latLngToCell`. -/
def wLtc : ℚ → ℚ → ℕ → String :=
  fun _ _ r => if r = 7 then "r7" else if r = 9 then "r9" else "r13"

/-- A concrete geocoding result. -/
def wGeo : GeoResult :=
  { place_id := some "pid1", formatted_address := "addr", lat := 1, lng := 2 }

/-- A concrete environment whose services all succeed. -/
def wEnv : Env :=
  { geocode := fun _ => some wGeo,
    getStreetViewImageUrl := fun _ _ => some "sv",
    evaluateAesthetics := fun _ _ => { beauty := some 7, blurb := some "nice" },
    latLngToCell := wLtc,
    cellToLatLng := fun _ => (0, 0) }

/-- The same environment with geocoding failing. -/
def wEnvNoGeo : Env := { wEnv with geocode := fun _ => none }

/-- A concrete request carrying only an address. -/
def wReq : PostRequest :=
  { address := some "10 Downing St", imageUrl := none, imageData := none,
    precomputedBeauty := none, precomputedReview := none }

/-- A concrete request with no address. -/
def wReqNoAddr : PostRequest :=
  { address := none, imageUrl := none, imageData := none,
    precomputedBeauty := none, precomputedReview := none }

/-- The row `postPoint wEnv wReq emptyState` inserts. -/
def wPoint : Point :=
  { place_id := some "pid1", beauty := 7, description := some "nice",
    model_version := "gemini-2.5-flash", address := "addr", lat := 1, lng := 2,
    h3_r7 := "r7", h3_r9 := "r9", h3_r13 := "r13", image_url := some "sv" }

/-- The 201 response of that insert. -/
def wResp : PostResponse :=
  { status := 201, point := some wPoint, message := none, error := none }

/-- The state after that single successful insert. -/
def wStOne : DBState :=
  { points := [wPoint], heat7 := [{ h3 := "r7", sum := 7, cnt := 1 }],
    heat9 := [{ h3 := "r9", sum := 7, cnt := 1 }] }

/-- The heat cell GET /heat reports for `wStOne` at resolution 7. -/
def wCell7 : HeatCell := { lat := 0, lng := 0, avg := 7, h3 := "r7" }

/-- The heat cell GET /heat reports for `wStHeat`. -/
def wCellA : HeatCell := { lat := 0, lng := 0, avg := 5, h3 := "a" }

/-- A concrete heat table state for the GET /heat witnesses. -/
def wStHeat : DBState :=
  { points := [], heat7 := [{ h3 := "a", sum := 5, cnt := 1 }], heat9 := [] }

/-- Two concrete insert jobs for the interleaving witness. -/
def wJobs : List InsertJob :=
  [{ place_id := some "pa", beauty := 3, description := some "da", address := "aa",
     lat := 0, lng := 0, image_url := none },
   { place_id := some "pb", beauty := 5, description := some "db", address := "ab",
     lat := 0, lng := 0, image_url := none }]

/-- The statements of `wJobs` run back to back. -/
def wOps : List DBOp := (wJobs.map (jobOps wLtc)).flatten

/-! ### Helper lemmas on cell aggregates and the upsert -/

theorem cellCnt_append_one {α : Type} (key : α → String) (xs : List α) (x : α) (c : String) :
    cellCnt key (xs ++ [x]) c = cellCnt key xs c + (if key x = c then 1 else 0) := by
  unfold cellCnt
  rw [List.filter_append, List.length_append]
  by_cases h : key x = c <;> simp [h]

theorem cellSum_append_one {α : Type} (key : α → String) (val : α → ℚ) (xs : List α) (x : α)
    (c : String) :
    cellSum key val (xs ++ [x]) c = cellSum key val xs c + (if key x = c then val x else 0) := by
  unfold cellSum
  rw [List.filter_append, List.map_append, List.sum_append]
  by_cases h : key x = c <;> simp [h]

theorem cellSum_of_cnt_zero {α : Type} (key : α → String) (val : α → ℚ) (xs : List α)
    (c : String) (h : cellCnt key xs c = 0) : cellSum key val xs c = 0 := by
  unfold cellCnt at h
  unfold cellSum
  rw [List.length_eq_zero] at h
  rw [h]; rfl

theorem find?_map_h3 (t : List HeatRow) (g : HeatRow → HeatRow) (hg : ∀ r, (g r).h3 = r.h3)
    (c : String) :
    (t.map g).find? (fun r => r.h3 == c) = (t.find? (fun r => r.h3 == c)).map g := by
  rw [List.find?_map]
  have hfun : ((fun r : HeatRow => r.h3 == c) ∘ g) = fun r : HeatRow => r.h3 == c := by
    funext r; simp [Function.comp_apply, hg]
  rw [hfun]

theorem upsertHeat_h3_preserved (k : String) (b : ℚ) :
    ∀ r : HeatRow,
      ((if r.h3 == k then { r with sum := r.sum + b, cnt := r.cnt + 1 } else r) : HeatRow).h3
        = r.h3 := by
  intro r; split <;> rfl

theorem find?_upsertHeat_ne (t : List HeatRow) (k : String) (b : ℚ) (c : String) (hck : c ≠ k) :
    (upsertHeat t k b).find? (fun r => r.h3 == c) = t.find? (fun r => r.h3 == c) := by
  unfold upsertHeat
  split
  · rw [find?_map_h3 _ _ (upsertHeat_h3_preserved k b)]
    cases hf : t.find? (fun r => r.h3 == c) with
    | none => rfl
    | some r =>
      have h3r : r.h3 = c := by simpa using List.find?_some hf
      simp only [Option.map_some']
      have hif : (if r.h3 == k then
          ({ r with sum := r.sum + b, cnt := r.cnt + 1 } : HeatRow) else r) = r := by
        rw [if_neg]
        simp [h3r]
        exact hck
      rw [hif]
  · rw [List.find?_append]
    have hone : ([({ h3 := k, sum := b, cnt := 1 } : HeatRow)].find? (fun r => r.h3 == c))
        = none := by
      have hkc : ¬ k = c := fun hh => hck hh.symm
      simp [List.find?_cons, hkc]
    rw [hone, Option.or_none]

theorem find?_upsertHeat_self_of_mem (t : List HeatRow) (k : String) (b : ℚ)
    (h : t.any (fun r => r.h3 == k) = true) :
    ∃ r, t.find? (fun r2 => r2.h3 == k) = some r ∧
      (upsertHeat t k b).find? (fun r2 => r2.h3 == k) =
        some { r with sum := r.sum + b, cnt := r.cnt + 1 } := by
  have hsome : (t.find? (fun r2 => r2.h3 == k)).isSome := by
    rw [List.find?_isSome]
    simpa [List.any_eq_true] using h
  obtain ⟨r, hr⟩ := Option.isSome_iff_exists.mp hsome
  refine ⟨r, hr, ?_⟩
  unfold upsertHeat
  rw [if_pos h, find?_map_h3 _ _ (upsertHeat_h3_preserved k b), hr]
  have h3r : r.h3 = k := by simpa using List.find?_some hr
  simp [h3r]

theorem find?_upsertHeat_self_of_not_mem (t : List HeatRow) (k : String) (b : ℚ)
    (h : t.any (fun r => r.h3 == k) = false) :
    (upsertHeat t k b).find? (fun r2 => r2.h3 == k)
        = some { h3 := k, sum := b, cnt := 1 } ∧
      t.find? (fun r2 => r2.h3 == k) = none := by
  have hnone : t.find? (fun r2 => r2.h3 == k) = none := by
    rw [List.find?_eq_none]
    intro x hx
    have := List.any_eq_false.mp h x hx
    simpa using this
  constructor
  · have hcond : ¬ ((t.any fun r => r.h3 == k) = true) := by rw [h]; simp
    unfold upsertHeat
    rw [if_neg hcond, List.find?_append, hnone]
    simp [List.find?_cons]
  · exact hnone

theorem tableConsistent_nil {α : Type} (key : α → String) (val : α → ℚ) :
    tableConsistent key val ([] : List HeatRow) ([] : List α) := by
  constructor
  · intro c r hr; cases hr
  · intro c _; rfl

theorem tableConsistent_upsert {α : Type} (key : α → String) (val : α → ℚ)
    (t : List HeatRow) (xs : List α) (x : α) (h : tableConsistent key val t xs) :
    tableConsistent key val (upsertHeat t (key x) (val x)) (xs ++ [x]) := by
  obtain ⟨hsome, hnone⟩ := h
  constructor
  · intro c r hr
    by_cases hck : c = key x
    · subst hck
      cases hAny : t.any (fun r2 => r2.h3 == key x) with
      | true =>
        obtain ⟨r0, hr0, hup⟩ := find?_upsertHeat_self_of_mem t (key x) (val x) hAny
        rw [hup] at hr
        obtain ⟨hs, hc, hpos⟩ := hsome _ _ hr0
        injection hr with hr
        subst hr
        refine ⟨?_, ?_, ?_⟩
        · rw [cellSum_append_one]; simp [hs]
        · rw [cellCnt_append_one]; simp [hc]
        · rw [cellCnt_append_one]; omega
      | false =>
        obtain ⟨hup, hfnone⟩ := find?_upsertHeat_self_of_not_mem t (key x) (val x) hAny
        rw [hup] at hr
        injection hr with hr
        subst hr
        have hcnt0 := hnone _ hfnone
        have hsum0 := cellSum_of_cnt_zero key val xs (key x) hcnt0
        refine ⟨?_, ?_, ?_⟩
        · rw [cellSum_append_one]; simp [hsum0]
        · rw [cellCnt_append_one]; simp [hcnt0]
        · rw [cellCnt_append_one, hcnt0]; simp
    · rw [find?_upsertHeat_ne t (key x) (val x) c hck] at hr
      obtain ⟨hs, hc, hpos⟩ := hsome _ _ hr
      have hne : ¬ key x = c := fun hh => hck hh.symm
      rw [cellSum_append_one, cellCnt_append_one]
      simp [hne, hs, hc, hpos]
  · intro c hfc
    by_cases hck : c = key x
    · exfalso
      subst hck
      cases hAny : t.any (fun r2 => r2.h3 == key x) with
      | true =>
        obtain ⟨r0, _, hup⟩ := find?_upsertHeat_self_of_mem t (key x) (val x) hAny
        rw [hup] at hfc; cases hfc
      | false =>
        obtain ⟨hup, _⟩ := find?_upsertHeat_self_of_not_mem t (key x) (val x) hAny
        rw [hup] at hfc; cases hfc
    · rw [find?_upsertHeat_ne t (key x) (val x) c hck] at hfc
      have h0 := hnone _ hfc
      have hne : ¬ key x = c := fun hh => hck hh.symm
      rw [cellCnt_append_one]
      simp [hne, h0]

theorem heatKeys_map_preserve (t : List HeatRow) (g : HeatRow → HeatRow)
    (hg : ∀ r, (g r).h3 = r.h3) : heatKeys (t.map g) = heatKeys t := by
  unfold heatKeys
  rw [List.map_map]
  have hfun : ((fun r : HeatRow => r.h3) ∘ g) = fun r : HeatRow => r.h3 := by
    funext r; simp [Function.comp_apply, hg]
  rw [hfun]

theorem heatKeys_upsert_nodup (t : List HeatRow) (k : String) (b : ℚ)
    (h : (heatKeys t).Nodup) : (heatKeys (upsertHeat t k b)).Nodup := by
  unfold upsertHeat
  split
  case isTrue hAny =>
    rw [heatKeys_map_preserve _ _ (upsertHeat_h3_preserved k b)]
    exact h
  case isFalse hAny =>
    have hk : k ∉ heatKeys t := by
      intro hk
      apply hAny
      unfold heatKeys at hk
      obtain ⟨r, hr, hh3⟩ := List.mem_map.mp hk
      exact List.any_eq_true.mpr ⟨r, hr, by simp [hh3]⟩
    have hkeys : heatKeys (t ++ [{ h3 := k, sum := b, cnt := 1 }]) = heatKeys t ++ [k] := by
      unfold heatKeys; rw [List.map_append]; rfl
    rw [hkeys]
    rw [(List.perm_append_singleton k (heatKeys t)).nodup_iff]
    exact List.nodup_cons.mpr ⟨hk, h⟩

theorem find?_of_mem_nodupKeys (t : List HeatRow) (h : (heatKeys t).Nodup) (r : HeatRow)
    (hr : r ∈ t) : t.find? (fun r2 => r2.h3 == r.h3) = some r := by
  induction t with
  | nil => cases hr
  | cons a t ih =>
    have hnd : a.h3 ∉ heatKeys t ∧ (heatKeys t).Nodup := by
      unfold heatKeys at h ⊢
      rw [List.map_cons, List.nodup_cons] at h
      exact h
    rcases List.mem_cons.mp hr with he | hm
    · subst he
      simp [List.find?_cons]
    · have hne : ¬ (a.h3 == r.h3) = true := by
        simp only [beq_iff_eq]
        intro hh
        exact hnd.1 (hh ▸ List.mem_map_of_mem (fun r2 => r2.h3) hm)
      have hfalse : (a.h3 == r.h3) = false := by simpa using hne
      simp only [List.find?_cons, hfalse]
      exact ih hnd.2 hm

/-! ### Interleavings of atomic statements -/

theorem interleave_flatten_perm {α : Type} (ls : List (List α)) (L : List α)
    (h : Interleave ls L) : ls.flatten.Perm L := by
  induction h with
  | nil ls hls =>
    have hnil : ls.flatten = [] := List.flatten_eq_nil_iff.mpr hls
    rw [hnil]
  | step l₁ x xs l₂ L h ih =>
    have hstep : (l₁ ++ (x :: xs) :: l₂).flatten = l₁.flatten ++ (x :: (xs ++ l₂.flatten)) := by
      rw [List.flatten_append, List.flatten_cons]; simp
    rw [hstep]
    refine List.Perm.trans List.perm_middle (List.Perm.cons x ?_)
    have hmid : (l₁ ++ xs :: l₂).flatten = l₁.flatten ++ (xs ++ l₂.flatten) := by
      rw [List.flatten_append, List.flatten_cons]
    rw [← hmid]
    exact ih

theorem interleave_nil_head {α : Type} (ls : List (List α)) (L : List α)
    (h : Interleave ls L) : Interleave ([] :: ls) L := by
  induction h with
  | nil ls hls =>
    refine Interleave.nil _ ?_
    intro l hl
    rcases List.mem_cons.mp hl with he | hm
    · exact he
    · exact hls l hm
  | step l₁ x xs l₂ L h ih =>
    exact Interleave.step ([] :: l₁) x xs l₂ L ih

theorem interleave_head {α : Type} (l : List α) (ls : List (List α)) (L : List α)
    (h : Interleave ls L) : Interleave (l :: ls) (l ++ L) := by
  induction l with
  | nil => exact interleave_nil_head ls L h
  | cons x xs ih => exact Interleave.step [] x xs ls (xs ++ L) ih

theorem interleave_flatten {α : Type} (ls : List (List α)) : Interleave ls ls.flatten := by
  induction ls with
  | nil => exact Interleave.nil [] (by intro l hl; cases hl)
  | cons l ls ih => exact interleave_head l ls ls.flatten ih

theorem insertsOf_append (a b : List DBOp) : insertsOf (a ++ b) = insertsOf a ++ insertsOf b := by
  unfold insertsOf; rw [List.filterMap_append]

theorem ups7Of_append (a b : List DBOp) : ups7Of (a ++ b) = ups7Of a ++ ups7Of b := by
  unfold ups7Of; rw [List.filterMap_append]

theorem ups9Of_append (a b : List DBOp) : ups9Of (a ++ b) = ups9Of a ++ ups9Of b := by
  unfold ups9Of; rw [List.filterMap_append]

theorem applyOps_fields (ops : List DBOp) : ∀ st : DBState,
    (applyOps st ops).points = st.points ++ insertsOf ops ∧
    (applyOps st ops).heat7 = applyUpserts st.heat7 (ups7Of ops) ∧
    (applyOps st ops).heat9 = applyUpserts st.heat9 (ups9Of ops) := by
  induction ops with
  | nil => intro st; refine ⟨by simp [applyOps, insertsOf], rfl, rfl⟩
  | cons op ops ih =>
    intro st
    have hstep : applyOps st (op :: ops) = applyOps (applyOp st op) ops := rfl
    rw [hstep]
    obtain ⟨hp, h7, h9⟩ := ih (applyOp st op)
    cases op with
    | insertPoint p =>
      refine ⟨?_, ?_, ?_⟩
      · rw [hp]; simp [applyOp, insertsOf, List.filterMap_cons]
      · rw [h7]; rfl
      · rw [h9]; rfl
    | upsert7 h b =>
      refine ⟨?_, ?_, ?_⟩
      · rw [hp]; rfl
      · rw [h7]; rfl
      · rw [h9]; rfl
    | upsert9 h b =>
      refine ⟨?_, ?_, ?_⟩
      · rw [hp]; rfl
      · rw [h7]; rfl
      · rw [h9]; rfl

theorem applyUpserts_append_one (t : List HeatRow) (ups : List (String × ℚ)) (u : String × ℚ) :
    applyUpserts t (ups ++ [u]) = upsertHeat (applyUpserts t ups) u.1 u.2 := by
  unfold applyUpserts
  rw [List.foldl_append]
  rfl

theorem applyUpserts_consistent (ups : List (String × ℚ)) :
    tableConsistent Prod.fst Prod.snd (applyUpserts [] ups) ups ∧
      (heatKeys (applyUpserts [] ups)).Nodup := by
  induction ups using List.reverseRecOn with
  | nil => exact ⟨tableConsistent_nil _ _, by simp [applyUpserts, heatKeys]⟩
  | append_singleton ups u ih =>
    rw [applyUpserts_append_one]
    exact ⟨tableConsistent_upsert Prod.fst Prod.snd _ ups u ih.1,
           heatKeys_upsert_nodup _ _ _ ih.2⟩

theorem cell_map_pair {α : Type} (key : α → String) (val : α → ℚ) (xs : List α) (c : String) :
    cellSum key val xs c
        = cellSum Prod.fst Prod.snd (xs.map (fun x => (key x, val x))) c ∧
      cellCnt key xs c = cellCnt Prod.fst (xs.map (fun x => (key x, val x))) c := by
  unfold cellSum cellCnt
  rw [List.filter_map]
  constructor
  · rw [List.map_map]; rfl
  · rw [List.length_map]; rfl

theorem tableConsistent_reindex {α β : Type} (key : α → String) (val : α → ℚ)
    (key2 : β → String) (val2 : β → ℚ) (t : List HeatRow) (xs : List α) (ys : List β)
    (hperm : (xs.map (fun x => (key x, val x))).Perm (ys.map (fun y => (key2 y, val2 y))))
    (h : tableConsistent key val t xs) : tableConsistent key2 val2 t ys := by
  have hagree : ∀ c, cellSum key val xs c = cellSum key2 val2 ys c
      ∧ cellCnt key xs c = cellCnt key2 ys c := by
    intro c
    have h1 := cell_map_pair key val xs c
    have h2 := cell_map_pair key2 val2 ys c
    have hsum : cellSum Prod.fst Prod.snd (xs.map (fun x => (key x, val x))) c
        = cellSum Prod.fst Prod.snd (ys.map (fun y => (key2 y, val2 y))) c := by
      unfold cellSum
      exact ((hperm.filter _).map _).sum_eq
    have hcnt : cellCnt Prod.fst (xs.map (fun x => (key x, val x))) c
        = cellCnt Prod.fst (ys.map (fun y => (key2 y, val2 y))) c := by
      unfold cellCnt
      exact (hperm.filter _).length_eq
    exact ⟨h1.1.trans (hsum.trans h2.1.symm), h1.2.trans (hcnt.trans h2.2.symm)⟩
  obtain ⟨hsome, hnone⟩ := h
  constructor
  · intro c r hr
    obtain ⟨hs, hc, hp⟩ := hsome c r hr
    exact ⟨hs.trans (hagree c).1, hc.trans (hagree c).2, (hagree c).2 ▸ hp⟩
  · intro c hfc
    exact (hagree c).2 ▸ hnone c hfc

theorem insertsOf_jobOps (ltc : ℚ → ℚ → ℕ → String) (jobs : List InsertJob) :
    insertsOf ((jobs.map (jobOps ltc)).flatten) = jobs.map (jobPoint ltc) := by
  induction jobs with
  | nil => rfl
  | cons j js ih =>
    rw [List.map_cons, List.flatten_cons, insertsOf_append, ih]
    rfl

theorem ups7Of_jobOps (ltc : ℚ → ℚ → ℕ → String) (jobs : List InsertJob) :
    ups7Of ((jobs.map (jobOps ltc)).flatten)
      = jobs.map (fun j => (ltc j.lat j.lng 7, j.beauty)) := by
  induction jobs with
  | nil => rfl
  | cons j js ih =>
    rw [List.map_cons, List.flatten_cons, ups7Of_append, ih]
    rfl

theorem ups9Of_jobOps (ltc : ℚ → ℚ → ℕ → String) (jobs : List InsertJob) :
    ups9Of ((jobs.map (jobOps ltc)).flatten)
      = jobs.map (fun j => (ltc j.lat j.lng 9, j.beauty)) := by
  induction jobs with
  | nil => rfl
  | cons j js ih =>
    rw [List.map_cons, List.flatten_cons, ups9Of_append, ih]
    rfl

/-! ### Case analysis of the POST /point handler -/

theorem postPoint_cases (env : Env) (req : PostRequest) (st : DBState) :
    ((postPoint env req st).2 = st ∧ (postPoint env req st).1.status ≠ 201) ∨
    (∃ p : Point,
      (postPoint env req st).1
          = { status := 201, point := some p, message := none, error := none } ∧
      1 ≤ p.beauty ∧ p.beauty ≤ 10 ∧
      (postPoint env req st).2
          = { points := st.points ++ [p],
              heat7 := upsertHeat st.heat7 (key7 env.latLngToCell p) p.beauty,
              heat9 := upsertHeat st.heat9 (key9 env.latLngToCell p) p.beauty }) := by
  unfold postPoint
  split
  · left; exact ⟨rfl, by intro hc; simp at hc⟩
  · split
    · left; exact ⟨rfl, by intro hc; simp at hc⟩
    · split
      · left; exact ⟨rfl, by intro hc; simp at hc⟩
      · split
        · left; exact ⟨rfl, by intro hc; simp at hc⟩
        · split
          · left; exact ⟨rfl, by intro hc; simp at hc⟩
          · dsimp only
            split
            case isTrue hOK =>
              right
              exact ⟨_, rfl, hOK.1, hOK.2.1, rfl⟩
            case isFalse hOK =>
              left; exact ⟨rfl, by intro hc; simp at hc⟩

theorem reachableInv_empty (ltc : ℚ → ℚ → ℕ → String) : reachableInv ltc emptyState := by
  refine ⟨List.nodup_nil, List.nodup_nil, ⟨tableConsistent_nil _ _, tableConsistent_nil _ _⟩, ?_⟩
  intro p hp; cases hp

theorem reachableInv_step (env : Env) (req : PostRequest) (st : DBState)
    (h : reachableInv env.latLngToCell st) :
    reachableInv env.latLngToCell (postPoint env req st).2 := by
  obtain ⟨h7n, h9n, ⟨hc7, hc9⟩, hb⟩ := h
  rcases postPoint_cases env req st with ⟨heq, _⟩ | ⟨p, _, hb1, hb2, heq⟩
  · rw [heq]; exact ⟨h7n, h9n, ⟨hc7, hc9⟩, hb⟩
  · rw [heq]
    refine ⟨?_, ?_, ⟨?_, ?_⟩, ?_⟩
    · exact heatKeys_upsert_nodup _ _ _ h7n
    · exact heatKeys_upsert_nodup _ _ _ h9n
    · exact tableConsistent_upsert (key7 env.latLngToCell) (fun q => q.beauty) _ _ p hc7
    · exact tableConsistent_upsert (key9 env.latLngToCell) (fun q => q.beauty) _ _ p hc9
    · intro q hq
      rcases List.mem_append.mp hq with hq | hq
      · exact hb q hq
      · rw [List.mem_singleton] at hq; subst hq; exact ⟨hb1, hb2⟩

theorem reachableInv_processAll (env : Env) (reqs : List PostRequest) (st : DBState)
    (h : reachableInv env.latLngToCell st) :
    reachableInv env.latLngToCell (processAll env reqs st) := by
  induction reqs generalizing st with
  | nil => exact h
  | cons r rs ih => exact ih _ (reachableInv_step env r st h)

theorem processAll_points_mono (env : Env) (reqs : List PostRequest) (st : DBState)
    (q : Point) (hq : q ∈ st.points) : q ∈ (processAll env reqs st).points := by
  induction reqs generalizing st with
  | nil => exact hq
  | cons r rs ih =>
    have hstep : processAll env (r :: rs) st = processAll env rs (postPoint env r st).2 := rfl
    rw [hstep]
    apply ih
    rcases postPoint_cases env r st with ⟨heq, _⟩ | ⟨p, _, _, _, heq⟩
    · rw [heq]; exact hq
    · rw [heq]; exact List.mem_append.mpr (Or.inl hq)

/-! ### Numeric bounds for the rounded averages -/

theorem round1_bounds {q : ℚ} (h1 : 1 ≤ q) (h2 : q ≤ 10) :
    1 ≤ round1 q ∧ round1 q ≤ 10 := by
  unfold round1
  have hlo : (10 : ℤ) ≤ ⌊q * 10 + 1 / 2⌋ := by
    have h0 : ((10 : ℚ) + 1 / 2) ≤ q * 10 + 1 / 2 := by linarith
    have hm := Int.floor_mono h0
    have he : ⌊(10 : ℚ) + 1 / 2⌋ = 10 := by norm_num
    rw [he] at hm
    exact hm
  have hhi : ⌊q * 10 + 1 / 2⌋ ≤ (100 : ℤ) := by
    have h0 : q * 10 + 1 / 2 ≤ (100 : ℚ) + 1 / 2 := by linarith
    have hm := Int.floor_mono h0
    have he : ⌊(100 : ℚ) + 1 / 2⌋ = 100 := by norm_num
    rw [he] at hm
    exact hm
  constructor
  · rw [le_div_iff₀ (by norm_num : (0 : ℚ) < 10)]
    have hc : ((10 : ℤ) : ℚ) ≤ ((⌊q * 10 + 1 / 2⌋ : ℤ) : ℚ) := by exact_mod_cast hlo
    push_cast at hc
    linarith
  · rw [div_le_iff₀ (by norm_num : (0 : ℚ) < 10)]
    have hc : ((⌊q * 10 + 1 / 2⌋ : ℤ) : ℚ) ≤ ((100 : ℤ) : ℚ) := by exact_mod_cast hhi
    push_cast at hc
    linarith

theorem sum_div_length_bounds (l : List ℚ) (hne : l ≠ [])
    (hb : ∀ x ∈ l, 1 ≤ x ∧ x ≤ 10) :
    1 ≤ l.sum / (l.length : ℚ) ∧ l.sum / (l.length : ℚ) ≤ 10 := by
  have hpos : 0 < (l.length : ℚ) := by
    have := List.length_pos.mpr hne
    exact_mod_cast this
  have h1 : (l.length : ℚ) * 1 ≤ l.sum := by
    have := List.card_nsmul_le_sum l 1 (fun x hx => (hb x hx).1)
    simpa [nsmul_eq_mul] using this
  have h2 : l.sum ≤ (l.length : ℚ) * 10 := by
    have := List.sum_le_card_nsmul l 10 (fun x hx => (hb x hx).2)
    simpa [nsmul_eq_mul] using this
  constructor
  · rw [le_div_iff₀ hpos]; linarith
  · rw [div_le_iff₀ hpos]; linarith

theorem postPoint_201_place (env : Env) (req : PostRequest) (st : DBState) (a : String)
    (geo : GeoResult) (hA : req.address = some a) (hG : env.geocode a = some geo)
    (resp : PostResponse) (st2 : DBState) (hpost : postPoint env req st = (resp, st2))
    (h201 : resp.status = 201) :
    ∃ p : Point, p.place_id = geo.place_id ∧ dedupLookup st geo.place_id = none ∧
      st2.points = st.points ++ [p] := by
  unfold postPoint at hpost
  simp only [hA, hG] at hpost
  split at hpost
  · injection hpost with h1 h2
    subst h1
    simp at h201
  next hdnone =>
    split at hpost
    · injection hpost with h1 h2
      subst h1
      simp at h201
    · split at hpost
      · injection hpost with h1 h2
        subst h1
        simp at h201
      · split at hpost
        · injection hpost with h1 h2
          subst h2
          refine ⟨_, ?_, hdnone, rfl⟩
          rfl
        · injection hpost with h1 h2
          subst h1
          simp at h201

/-! ### Claim theorems -/

/-- Claim C8: with per-statement atomicity (the only coordination the
managed database provides), any interleaving of the write statements of
concurrently running, completed POST /point requests leaves the heat
aggregates consistent with the stored points: per resolution and cell,
`sum` and `cnt` equal the sum and count of the beauty values of the
points stored in that cell. -/
theorem concurrent_aggregates_consistent (ltc : ℚ → ℚ → ℕ → String)
    (jobs : List InsertJob) (L : List DBOp)
    (h : Interleave (jobs.map (jobOps ltc)) L) :
    aggregatesConsistent ltc (applyOps emptyState L) := by
  have hperm := interleave_flatten_perm _ _ h
  obtain ⟨hp, h7, h9⟩ := applyOps_fields L emptyState
  have hIns : ((jobs.map (jobPoint ltc))).Perm (insertsOf L) := by
    rw [← insertsOf_jobOps ltc jobs]
    unfold insertsOf
    exact hperm.filterMap _
  have hU7 : ((jobs.map (fun j => (ltc j.lat j.lng 7, j.beauty)))).Perm (ups7Of L) := by
    rw [← ups7Of_jobOps ltc jobs]
    unfold ups7Of
    exact hperm.filterMap _
  have hU9 : ((jobs.map (fun j => (ltc j.lat j.lng 9, j.beauty)))).Perm (ups9Of L) := by
    rw [← ups9Of_jobOps ltc jobs]
    unfold ups9Of
    exact hperm.filterMap _
  have hpts : (applyOps emptyState L).points = insertsOf L := hp
  have e27 : (jobs.map (jobPoint ltc)).map (fun p => (key7 ltc p, p.beauty))
      = jobs.map (fun j => (ltc j.lat j.lng 7, j.beauty)) := by
    rw [List.map_map]
    rfl
  have e29 : (jobs.map (jobPoint ltc)).map (fun p => (key9 ltc p, p.beauty))
      = jobs.map (fun j => (ltc j.lat j.lng 9, j.beauty)) := by
    rw [List.map_map]
    rfl
  refine ⟨?_, ?_⟩
  · rw [hpts, h7]
    apply tableConsistent_reindex Prod.fst Prod.snd (key7 ltc) (fun p => p.beauty) _
      (ups7Of L) (insertsOf L) ?_ ((applyUpserts_consistent (ups7Of L)).1)
    have e1 : (ups7Of L).map (fun u : String × ℚ => (u.1, u.2)) = ups7Of L := by
      simp
    rw [e1]
    refine List.Perm.trans hU7.symm ?_
    rw [← e27]
    exact hIns.map _
  · rw [hpts, h9]
    apply tableConsistent_reindex Prod.fst Prod.snd (key9 ltc) (fun p => p.beauty) _
      (ups9Of L) (insertsOf L) ?_ ((applyUpserts_consistent (ups9Of L)).1)
    have e1 : (ups9Of L).map (fun u : String × ℚ => (u.1, u.2)) = ups9Of L := by
      simp
    rw [e1]
    refine List.Perm.trans hU9.symm ?_
    rw [← e29]
    exact hIns.map _

/-- Claim C1: starting from empty tables, after any finite sequence of
sequentially completed POST /point requests, for each resolution r ∈ {7, 9}
and every H3 cell, the `heat_r` row for that cell stores exactly the sum
and count of the beauty scores of the inserted points whose
`latLngToCell(lat, lng, r)` index is that cell, and a cell with no points
has no row; each successful insertion performs exactly the two
`upsertHeat` increments. -/
theorem heat_aggregates_track_points (env : Env) (reqs : List PostRequest) :
    aggregatesConsistent env.latLngToCell (processAll env reqs emptyState) :=
  (reachableInv_processAll env reqs emptyState
    (reachableInv_empty env.latLngToCell)).2.2.1

/-- Claim C2 counterexample: at zoom 16 `getH3Resolution` selects
resolution 13, for which the schema creates no heat table, so GET /heat
does not serve a response there — refuting "heat_r<resolution> ... exists
for every such z". -/
theorem heat_resolution_counterexample :
    getH3Resolution 16 = 13 ∧ ¬ heatTableExists (getH3Resolution 16) ∧
      getHeat wEnv emptyState 16 0 0 0 0 = none := by
  refine ⟨rfl, by decide, rfl⟩

/-- Claim C2 (amended): `getH3Resolution` assigns 7 to zoom 9-12, 9 to
zoom 13-15, 13 to zoom 16 and above, and 7 to any other zoom; for every
zoom strictly below 16 the assigned resolution has a heat table and
GET /heat succeeds (at zoom 16 and above the assigned table `heat_r13`
does not exist and the request fails). -/
theorem heat_resolution_amended (z : ℤ) :
    ((9 ≤ z ∧ z ≤ 12) → getH3Resolution z = 7) ∧
    ((13 ≤ z ∧ z ≤ 15) → getH3Resolution z = 9) ∧
    (16 ≤ z → getH3Resolution z = 13) ∧
    (¬ (9 ≤ z ∧ z ≤ 12) → ¬ (13 ≤ z ∧ z ≤ 15) → ¬ 16 ≤ z → getH3Resolution z = 7) ∧
    (z < 16 → heatTableExists (getH3Resolution z) ∧ heatServed z) := by
  refine ⟨?_, ?_, ?_, ?_, ?_⟩
  · intro h; unfold getH3Resolution; rw [if_pos h]
  · intro h; unfold getH3Resolution; rw [if_neg (by omega), if_pos h]
  · intro h; unfold getH3Resolution; rw [if_neg (by omega), if_neg (by omega), if_pos h]
  · intro h1 h2 h3; unfold getH3Resolution; rw [if_neg h1, if_neg h2, if_neg h3]
  · intro hz
    have hres : getH3Resolution z = 7 ∨ getH3Resolution z = 9 := by
      unfold getH3Resolution
      split_ifs with ha hb hc
      · exact Or.inl rfl
      · exact Or.inr rfl
      · omega
      · exact Or.inl rfl
    constructor
    · rcases hres with h | h <;> rw [h]
      · exact Or.inl rfl
      · exact Or.inr rfl
    · intro env st w s e n
      unfold getHeat
      rcases hres with h | h <;> rw [h] <;> simp [selectHeatTable]

/-- Claim C3: for every bbox, a served GET /heat response consists exactly
of the cells, among the first 20000 rows of the selected table whose avg
is non-null, whose centroid `cellToLatLng(h3)` satisfies
west ≤ lng ≤ east and south ≤ lat ≤ north, each reported with that
centroid, its h3 id and its avg. -/
theorem heat_view_filter (env : Env) (st : DBState) (zoom : ℤ) (w s e n : ℚ)
    (res : List HeatCell) (h : getHeat env st zoom w s e n = some res) :
    heatFilterSpec env st zoom w s e n res := by
  unfold getHeat at h
  obtain ⟨t, ht, hres⟩ := Option.map_eq_some'.mp h
  refine ⟨t, ht, ?_⟩
  intro cell
  rw [← hres, List.mem_filterMap]
  constructor
  · rintro ⟨r, hr, hf⟩
    refine ⟨r, hr, ?_⟩
    dsimp only at hf
    split at hf
    · cases hf
    next a hEq =>
      split at hf
      next hcond =>
        injection hf with hf
        subst hf
        exact ⟨hEq, Prod.mk.eta.symm, rfl, hcond.1, hcond.2.1, hcond.2.2.1, hcond.2.2.2⟩
      next => cases hf
  · rintro ⟨r, hr, hAvg, hcent, hh3, hw, he, hs, hn⟩
    refine ⟨r, hr, ?_⟩
    dsimp only
    rw [hAvg]
    dsimp only
    rw [hcent]
    dsimp only
    rw [if_pos ⟨hw, he, hs, hn⟩, ← hh3]

/-- Claim C4: the GET /points response contains only stored points whose
lat lies between south and north and lng between west and east
(inclusive), at most 5000 of them, and exactly the matching points when at
most 5000 match. -/
theorem points_viewport (st : DBState) (w s e n : ℚ) :
    pointsResponseSpec st w s e n (getPoints st w s e n) := by
  unfold pointsResponseSpec getPoints
  refine ⟨?_, ?_, ?_⟩
  · intro p hp
    have hp2 := List.take_subset _ _ hp
    rw [List.mem_filter] at hp2
    exact ⟨hp2.1, of_decide_eq_true hp2.2⟩
  · exact List.length_take_le _ _
  · intro hlen p
    rw [List.take_of_length_le hlen, List.mem_filter]
    constructor
    · rintro ⟨h1, h2⟩; exact ⟨h1, of_decide_eq_true h2⟩
    · rintro ⟨h1, h2⟩; exact ⟨h1, decide_eq_true h2⟩

/-- Claim C5: POST /point runs address check, geocoding, image selection
and AI evaluation in order before the insert, and each failure before the
insert (missing address 400, failed geocode 400, no Street View imagery
400, no beauty score 500) produces that error response and leaves the
points and heat tables unchanged; more generally any non-201 outcome
leaves the state unchanged. -/
theorem post_point_error_paths (env : Env) (req : PostRequest) (st : DBState) :
    postPointErrorSpec env req st := by
  refine ⟨?_, ?_, ?_, ?_, ?_⟩
  · intro hA
    simp [postPoint, hA]
  · intro a hA hG
    simp [postPoint, hA, hG]
  · intro a geo hA hG hD hU hI hSV
    have him : imageSource env req geo = none := by
      simp [imageSource, hU, hI, hSV]
    simp [postPoint, hA, hG, hD, him]
  · intro a geo img hA hG hD hImg hBeauty
    simp [postPoint, hA, hG, hD, hImg, hBeauty]
  · intro hne
    rcases postPoint_cases env req st with ⟨h2, _⟩ | ⟨p, hresp, _, _, _⟩
    · exact h2
    · exact absurd (by rw [hresp]) hne

/-- Claim C6: the beauty value produced by `evaluateAesthetics` is `null`
on a thrown error; otherwise, a matched `SCORE: n` is clamped to [1, 10],
and with no SCORE match the first standalone number in [1, 10] is used
(else `null`); in every case a non-null beauty lies in [1, 10]. -/
theorem evaluate_beauty_range (errored : Bool) (scoreMatch : Option ℚ) (numbers : List ℚ) :
    (errored = true → evaluateAestheticsBeauty errored scoreMatch numbers = none) ∧
    (∀ m, errored = false → scoreMatch = some m →
        evaluateAestheticsBeauty errored scoreMatch numbers = some (max 1 (min 10 m))) ∧
    (errored = false → scoreMatch = none →
        evaluateAestheticsBeauty errored scoreMatch numbers
          = numbers.find? (fun c => decide (1 ≤ c ∧ c ≤ 10))) ∧
    (∀ v, evaluateAestheticsBeauty errored scoreMatch numbers = some v →
        1 ≤ v ∧ v ≤ 10) := by
  refine ⟨?_, ?_, ?_, ?_⟩
  · intro he; simp [evaluateAestheticsBeauty, he]
  · intro m he hs; simp [evaluateAestheticsBeauty, parseScore, he, hs]
  · intro he hs; simp [evaluateAestheticsBeauty, parseScore, he, hs]
  · intro v hv
    unfold evaluateAestheticsBeauty at hv
    split at hv
    · cases hv
    · unfold parseScore at hv
      split at hv
      next m =>
        injection hv with hv
        subst hv
        constructor
        · exact le_max_left 1 _
        · exact max_le (by norm_num) (min_le_left 10 _)
      next =>
        have := List.find?_some hv
        simpa using this

theorem cell_mean_bounds {α : Type} (key : α → String) (val : α → ℚ) (xs : List α) (c : String)
    (hpos : 0 < cellCnt key xs c) (hb : ∀ x ∈ xs, 1 ≤ val x ∧ val x ≤ 10) :
    1 ≤ cellSum key val xs c / (cellCnt key xs c : ℚ) ∧
      cellSum key val xs c / (cellCnt key xs c : ℚ) ≤ 10 := by
  have hl : ((xs.filter (fun x => key x == c)).map val).length = cellCnt key xs c := by
    rw [List.length_map]; rfl
  have hs : ((xs.filter (fun x => key x == c)).map val).sum = cellSum key val xs c := rfl
  have hne : (xs.filter (fun x => key x == c)).map val ≠ [] := by
    intro hnil
    rw [hnil] at hl
    simp at hl
    omega
  have hbnd : ∀ y ∈ (xs.filter (fun x => key x == c)).map val, 1 ≤ y ∧ y ≤ 10 := by
    intro y hy
    obtain ⟨x, hx, hxy⟩ := List.mem_map.mp hy
    exact hxy ▸ hb x (List.filter_subset' _ hx)
  have hdiv := sum_div_length_bounds _ hne hbnd
  rw [hs, hl] at hdiv
  exact hdiv

/-- Claim C7: a point successfully created by POST /point (status 201) is
returned by any subsequent GET /points whose bbox contains its
coordinates, provided fewer than 5000 stored points lie in that bbox at
query time (later requests only add points, never remove them). -/
theorem point_roundtrip (env : Env) (req : PostRequest) (st : DBState)
    (resp : PostResponse) (st2 : DBState) (p : Point) (reqs : List PostRequest)
    (w s e n : ℚ)
    (hpost : postPoint env req st = (resp, st2)) (h201 : resp.status = 201)
    (hp : resp.point = some p) (hin : inBBox w s e n p)
    (hcount : ((processAll env reqs st2).points.filter
        (fun q => decide (inBBox w s e n q))).length < 5000) :
    p ∈ getPoints (processAll env reqs st2) w s e n := by
  have hp2 : p ∈ st2.points := by
    rcases postPoint_cases env req st with ⟨_, hne⟩ | ⟨p0, hresp, _, _, heq⟩
    · rw [hpost] at hne
      exact absurd h201 hne
    · rw [hpost] at hresp heq
      have hpoints : st2.points = st.points ++ [p0] := congrArg DBState.points heq
      have hpoint : resp.point = some p0 := congrArg PostResponse.point hresp
      have hpp : p0 = p := Option.some.inj (hpoint.symm.trans hp)
      subst hpp
      rw [hpoints]
      exact List.mem_append.mpr (Or.inr (List.mem_singleton.mpr rfl))
  have hp3 : p ∈ (processAll env reqs st2).points :=
    processAll_points_mono env reqs st2 p hp2
  unfold getPoints
  have hmem : p ∈ (processAll env reqs st2).points.filter
      (fun q => decide (inBBox w s e n q)) := by
    rw [List.mem_filter]
    exact ⟨hp3, decide_eq_true hin⟩
  rw [List.take_of_length_le (le_of_lt hcount)]
  exact hmem

/-- Claim C9: when the geocoded place_id already has a row in `points`,
POST /point returns 200 with the existing point and the message "Location
already exists in database", leaves `points`, `heat_r7` and `heat_r9`
unchanged, and consults neither Street View nor the AI model; hence
posting the same address twice has the same database effect as posting
it once. -/
theorem dedup_idempotent (env : Env) (req : PostRequest) (st : DBState)
    (a : String) (geo : GeoResult) (pid : String)
    (hA : req.address = some a) (hG : env.geocode a = some geo)
    (hP : geo.place_id = some pid) :
    dedupSpec env req st pid := by
  constructor
  · intro p hfind
    have hd : dedupLookup st geo.place_id = some p := by
      unfold dedupLookup
      rw [hP]
      exact hfind
    constructor
    · simp [postPoint, hA, hG, hd, dedupResponse]
    · intro sv ai2
      simp [postPoint, hA, hG, hd, dedupResponse]
  · intro resp st2 hpost h201
    obtain ⟨p, hpid, hdnone, hpts⟩ :=
      postPoint_201_place env req st a geo hA hG resp st2 hpost h201
    refine ⟨p, ?_⟩
    have hnone1 : st.points.find? (fun q => q.place_id == some pid) = none := by
      have hdd := hdnone
      unfold dedupLookup at hdd
      rw [hP] at hdd
      exact hdd
    have hfind2 : dedupLookup st2 geo.place_id = some p := by
      have hbody : st2.points.find? (fun q => q.place_id == some pid) = some p := by
        rw [hpts, List.find?_append, hnone1]
        have hpred : (p.place_id == some pid) = true := by
          rw [hpid, hP]
          simp
        simp [List.find?_cons, hpred]
      unfold dedupLookup
      rw [hP]
      exact hbody
    simp [postPoint, hA, hG, hfind2, dedupResponse]

/-- Claim C10: every avg returned by GET /heat over a database reached by
the worker equals `ROUND(sum / cnt, 1)` of a heat row with cnt > 0, and —
the CHECK constraint bounding every stored beauty to [1, 10] — lies in
[1, 10]; a row with zero count (null avg) is never returned. -/
theorem heat_avg_in_range (env : Env) (reqs : List PostRequest) (zoom : ℤ) (w s e n : ℚ)
    (res : List HeatCell)
    (h : getHeat env (processAll env reqs emptyState) zoom w s e n = some res) :
    heatAvgSpec (processAll env reqs emptyState) zoom res := by
  obtain ⟨hn7, hn9, ⟨hc7, hc9⟩, hb⟩ :=
    reachableInv_processAll env reqs emptyState (reachableInv_empty env.latLngToCell)
  unfold getHeat at h
  obtain ⟨t, ht, hres⟩ := Option.map_eq_some'.mp h
  have ht0 := ht
  intro cell hcell
  rw [← hres] at hcell
  obtain ⟨r, hr, hf⟩ := List.mem_filterMap.mp hcell
  have hrt : r ∈ t := List.filter_subset' _ (List.take_subset _ _ hr)
  dsimp only at hf
  have hAvgCell : heatAvg r = some cell.avg := by
    split at hf
    · cases hf
    next a hEq =>
      split at hf
      next hcond =>
        injection hf with hf
        subst hf
        exact hEq
      next => cases hf
  have hcnt : 0 < r.cnt ∧ cell.avg = round1 (r.sum / (r.cnt : ℚ)) := by
    unfold heatAvg at hAvgCell
    split at hAvgCell
    next hpos =>
      injection hAvgCell with hh
      exact ⟨hpos, hh.symm⟩
    next => cases hAvgCell
  have hKey : ∃ key : Point → String,
      (heatKeys t).Nodup ∧
      tableConsistent key (fun q => q.beauty) t
        (processAll env reqs emptyState).points := by
    unfold selectHeatTable at ht
    split_ifs at ht with h7 h9
    · injection ht with ht
      exact ⟨key7 env.latLngToCell, ht ▸ hn7, ht ▸ hc7⟩
    · injection ht with ht
      exact ⟨key9 env.latLngToCell, ht ▸ hn9, ht ▸ hc9⟩
  obtain ⟨key, hnd, hcons⟩ := hKey
  have hfind : t.find? (fun r2 => r2.h3 == r.h3) = some r :=
    find?_of_mem_nodupKeys t hnd r hrt
  obtain ⟨hsum, hcount, hposcell⟩ := hcons.1 r.h3 r hfind
  have hmean := cell_mean_bounds key (fun q => q.beauty)
    (processAll env reqs emptyState).points r.h3 hposcell hb
  have h110 : 1 ≤ r.sum / (r.cnt : ℚ) ∧ r.sum / (r.cnt : ℚ) ≤ 10 := by
    rw [hsum, hcount]
    exact hmean
  have hround := round1_bounds h110.1 h110.2
  refine ⟨⟨?_, ?_⟩, t, r, ht0, hrt, hcnt.1, hcnt.2⟩
  · rw [hcnt.2]; exact hround.1
  · rw [hcnt.2]; exact hround.2

/-! ### Witnesses: the theorems above applied at concrete inputs -/

/-- Witness for C1 after one insert. -/
theorem heat_aggregates_track_points_witness :
    aggregatesConsistent wEnv.latLngToCell (processAll wEnv [wReq] emptyState) :=
  heat_aggregates_track_points wEnv [wReq]

/-- Witness for the amended C2 at zoom 12. -/
theorem heat_resolution_amended_witness :
    getH3Resolution 12 = 7 ∧ (heatTableExists (getH3Resolution 12) ∧ heatServed 12) :=
  ⟨(heat_resolution_amended 12).1 (by decide),
   (heat_resolution_amended 12).2.2.2.2 (by decide)⟩

/-- Witness for C3 on a one-row heat table. -/
theorem heat_view_filter_witness :
    getHeat wEnv wStHeat 12 (-1) (-1) 1 1 = some [wCellA] ∧
      heatFilterSpec wEnv wStHeat 12 (-1) (-1) 1 1 [wCellA] := by
  have heq : getHeat wEnv wStHeat 12 (-1) (-1) 1 1 = some [wCellA] := by
    with_unfolding_all decide
  exact ⟨heq, heat_view_filter wEnv wStHeat 12 (-1) (-1) 1 1 [wCellA] heq⟩

/-- Witness for C4 on a one-point database. -/
theorem points_viewport_witness :
    pointsResponseSpec wStOne 0 0 10 10 (getPoints wStOne 0 0 10 10) :=
  points_viewport wStOne 0 0 10 10

/-- Witness for C5: a failing geocode and a missing address. -/
theorem post_point_error_paths_witness :
    postPointErrorSpec wEnvNoGeo wReq emptyState ∧
      postPointErrorSpec wEnv wReqNoAddr emptyState :=
  ⟨post_point_error_paths wEnvNoGeo wReq emptyState,
   post_point_error_paths wEnv wReqNoAddr emptyState⟩

/-- Witness for C6: a SCORE match of 12 is clamped into the range. -/
theorem evaluate_beauty_range_witness :
    evaluateAestheticsBeauty false (some 12) [] = some 10 ∧
      (1 ≤ (10 : ℚ) ∧ (10 : ℚ) ≤ 10) := by
  have heq : evaluateAestheticsBeauty false (some 12) [] = some 10 := by decide
  exact ⟨heq, (evaluate_beauty_range false (some 12) []).2.2.2 10 heq⟩

/-- Witness for C7: the point inserted by `wReq` is served back. -/
theorem point_roundtrip_witness :
    postPoint wEnv wReq emptyState = (wResp, wStOne) ∧
      inBBox 0 0 10 10 wPoint ∧
      ((processAll wEnv ([] : List PostRequest) wStOne).points.filter
          (fun q => decide (inBBox 0 0 10 10 q))).length < 5000 ∧
      wPoint ∈ getPoints (processAll wEnv [] wStOne) 0 0 10 10 := by
  have hpost : postPoint wEnv wReq emptyState = (wResp, wStOne) := by decide
  have hin : inBBox 0 0 10 10 wPoint := by decide
  have hcount : ((processAll wEnv ([] : List PostRequest) wStOne).points.filter
      (fun q => decide (inBBox 0 0 10 10 q))).length < 5000 := by decide
  exact ⟨hpost, hin, hcount,
    point_roundtrip wEnv wReq emptyState wResp wStOne wPoint [] 0 0 10 10
      hpost rfl rfl hin hcount⟩

/-- Witness for C8: two concurrent inserts, statements interleaved. -/
theorem concurrent_aggregates_consistent_witness :
    Interleave (wJobs.map (jobOps wLtc)) wOps ∧
      aggregatesConsistent wLtc (applyOps emptyState wOps) :=
  ⟨interleave_flatten _,
   concurrent_aggregates_consistent wLtc wJobs wOps (interleave_flatten _)⟩

/-- Witness for C9: reposting the address of the stored point. -/
theorem dedup_idempotent_witness :
    wReq.address = some "10 Downing St" ∧ wEnv.geocode "10 Downing St" = some wGeo ∧
      wGeo.place_id = some "pid1" ∧ dedupSpec wEnv wReq wStOne "pid1" :=
  ⟨rfl, rfl, rfl, dedup_idempotent wEnv wReq wStOne "10 Downing St" wGeo "pid1" rfl rfl rfl⟩

/-- Witness for C10 after one insert of beauty 7. -/
theorem heat_avg_in_range_witness :
    getHeat wEnv (processAll wEnv [wReq] emptyState) 12 (-1) (-1) 1 1 = some [wCell7] ∧
      heatAvgSpec (processAll wEnv [wReq] emptyState) 12 [wCell7] := by
  have heq : getHeat wEnv (processAll wEnv [wReq] emptyState) 12 (-1) (-1) 1 1
      = some [wCell7] := by with_unfolding_all decide
  exact ⟨heq, heat_avg_in_range wEnv [wReq] 12 (-1) (-1) 1 1 [wCell7] heq⟩

end Beholder
